import Mathlib

/-!
Verification of the chess-clock controller in `serwer.py` (class
`ChessSystem` plus the `on_write` command handler of `run_server`).

The game state is the five fields of `ChessSystem.__init__` that the clock
state machine reads and writes: `elo`, `white_time`, `black_time`,
`current_turn`, `game_active`.  Hardware handles (GPIO pins, the SPI
display, fonts), the `chess.Board` and the engine handle are external
collaborators that the clock logic never branches on, so they are not part
of the embedded state.  Python integers are unbounded, hence `Int`.

`python-chess` represents `chess.WHITE` / `chess.BLACK` as the two values
of a two-element type; we embed them as the enum `Side`.
-/

inductive Side where
  | WHITE
  | BLACK
deriving DecidableEq, Repr

/-- The opposite side (the opponent). -/
def opponent : Side → Side
  | Side.WHITE => Side.BLACK
  | Side.BLACK => Side.WHITE

/-- The mutable game state owned by `ChessSystem` (fields set in
`__init__`, lines 54-58 of `serwer.py`). -/
structure GameState where
  elo : Int
  white_time : Int
  black_time : Int
  current_turn : Side
  game_active : Bool
deriving DecidableEq, Repr

/-- The state as `ChessSystem.__init__` leaves it: `elo = 800`,
`white_time = black_time = 600`, `current_turn = chess.WHITE`,
`game_active = False`. -/
def initState : GameState :=
  { elo := 800
    white_time := 600
    black_time := 600
    current_turn := Side.WHITE
    game_active := false }

/-- One iteration of the `update_timer` loop body (lines 87-97), paired
with a flag recording whether `draw_clock` was invoked during that
iteration.  In the source, `self.draw_clock()` sits inside the
`if self.game_active:` block, so the flag is raised only on that path. -/
def tickR (s : GameState) : GameState × Bool :=
  if s.game_active then
    let s1 :=
      if s.current_turn = Side.WHITE ∧ s.white_time > 0 then
        { s with white_time := s.white_time - 1 }
      else if s.current_turn = Side.BLACK ∧ s.black_time > 0 then
        { s with black_time := s.black_time - 1 }
      else s
    let s2 :=
      if s1.white_time ≤ 0 ∨ s1.black_time ≤ 0 then
        { s1 with game_active := false }
      else s1
    (s2, true)
  else (s, false)

/-- The state transformation of one timer tick (the state component of
`tickR`). -/
def tick (s : GameState) : GameState := (tickR s).1

/-- One detected press of `side`'s button, as handled by the
`watch_buttons` loop (lines 101-114): when the game is active and it is
`side`'s turn, the turn passes to the opponent; otherwise nothing
changes. -/
def onTurnSignal (s : GameState) (side : Side) : GameState :=
  if s.game_active ∧ s.current_turn = side then
    { s with current_turn := opponent side }
  else s

/-- `ChessSystem.start_new_game` (lines 116-124), restricted to the game
state: stores `elo`, sets both clocks to `minutes * 60`, activates the
game and gives the turn to WHITE.  (`board.reset()` and the render are
outside the embedded state.) -/
def startNewGame (s : GameState) (elo minutes : Int) : GameState :=
  { s with
    elo := elo
    white_time := minutes * 60
    black_time := minutes * 60
    game_active := true
    current_turn := Side.WHITE }

/-- An externally observable event hitting the controller: a timer tick
or a detected button press for one side. -/
inductive Event where
  | tick
  | signal (side : Side)
deriving DecidableEq, Repr

/-- Apply one event to the state. -/
def stepEvent (s : GameState) : Event → GameState
  | Event.tick => tick s
  | Event.signal side => onTurnSignal s side

/-- Run a sequence of tick / button events from a state. -/
def run (s : GameState) : List Event → GameState
  | [] => s
  | e :: es => run (stepEvent s e) es

/-! ### The inbound command boundary (`on_write`, lines 130-142)

`on_write` decodes the written bytes, and when the text starts with
`START_GAME:ELO:` it splits on `:`, converts fields 2 and 4 with Python's
`int`, and calls `start_new_game`.  Any exception (an out-of-range index
or a `ValueError` from `int`) is caught and only logged, so the state is
touched exactly when both conversions succeed.  We embed the string
operations over `List Char` so that they compute by structural
recursion. -/

/-- Split a character list at every occurrence of `sep`; `acc` holds the
current field reversed.  Mirrors Python `str.split(sep)` for a one-char
separator. -/
def splitAux (sep : Char) : List Char → List Char → List (List Char)
  | [], acc => [acc.reverse]
  | c :: cs, acc =>
    if c = sep then acc.reverse :: splitAux sep cs []
    else splitAux sep cs (c :: acc)

/-- `data.split(":")` of the source. -/
def splitColon (t : String) : List String :=
  (splitAux (':') t.data []).map (fun l => String.mk l)

/-- Is `p` a prefix of `l`? -/
def isPref : List Char → List Char → Bool
  | [], _ => true
  | _ :: _, [] => false
  | c :: cs, d :: ds => c = d && isPref cs ds

/-- `t.startswith(p)` of the source. -/
def startsWithPre (t p : String) : Bool := isPref p.data t.data

/-- Strip leading and trailing whitespace. -/
def trimChars (l : List Char) : List Char :=
  ((l.dropWhile Char.isWhitespace).reverse.dropWhile Char.isWhitespace).reverse

/-- The value of a nonempty all-decimal-digit character list; `none`
otherwise. -/
def digitsVal (l : List Char) : Option Nat :=
  if l = [] then none
  else if l.all Char.isDigit then
    some (l.foldl (fun n c => 10 * n + (c.toNat - 48)) 0)
  else none

/-- Sign and digits of a trimmed numeral. -/
def parseIntChars : List Char → Option Int
  | [] => none
  | c :: cs =>
    if c = ('-') then (digitsVal cs).map (fun n => -(n : Int))
    else if c = ('+') then (digitsVal cs).map (fun n => (n : Int))
    else (digitsVal (c :: cs)).map (fun n => (n : Int))

/-- Python `int(t)` on a command field: optional surrounding whitespace,
an optional sign, then one or more ASCII decimal digits; `none` models
the `ValueError` raised on anything else.  (Python's underscore grouping
and non-ASCII digits are not exercised by this command format.) -/
def parseInt (t : String) : Option Int := parseIntChars (trimChars t.data)

/-- The `on_write` handler (lines 130-142), restricted to the game state.
It is a total function: the `try`/`except` of the source means a parse
failure of either field leaves the state untouched instead of
propagating. -/
def onWrite (s : GameState) (data : String) : GameState :=
  if startsWithPre data ("START_GAME:ELO:") then
    match (splitColon data)[2]?, (splitColon data)[4]? with
    | some p2, some p4 =>
      match parseInt p2, parseInt p4 with
      | some eloVal, some timeVal => startNewGame s eloVal timeVal
      | _, _ => s
    | _, _ => s
  else s

/-- Does `data` carry a start command that `on_write` fully parses
(prefix present, fields 2 and 4 exist and convert as integers)? -/
def wellFormedStart (data : String) : Bool :=
  startsWithPre data ("START_GAME:ELO:") &&
    (match (splitColon data)[2]?, (splitColon data)[4]? with
     | some p2, some p4 => (parseInt p2).isSome && (parseInt p4).isSome
     | _, _ => false)

/-! ### The renderer (`draw_clock`, lines 60-84)

When the display initialized, `draw_clock` fills the background, draws
one bordered panel per side with the side's remaining time as
`f"{m:02d}:{s:02d}"` of `divmod(time, 60)`, colors the border of the
panel whose side is `current_turn` gold, and overlays `POŁĄCZ...` when
`game_active` is false.  We embed the drawn content as a record. -/

def C_BEIGE : String := "#463B2A"
def C_BROWN_D : String := "#412C28"
def C_BROWN_L : String := "#D18164"
def C_GOLD : String := "#C6A664"

/-- Python `f"{n:02d}"`: sign, then the decimal digits zero-padded so the
whole field is at least two characters wide. -/
def format02 (n : Int) : String :=
  let sign := if n < 0 then ("-") else ("")
  let ds := toString n.natAbs
  let pad := if sign.length + ds.length < 2 then ("0") else ("")
  sign ++ pad ++ ds

/-- `f"{m:02d}:{s:02d}"` of `divmod(t, 60)`; Python's `divmod` is floor
division, i.e. `Int.fdiv` / `Int.fmod`. -/
def mmss (t : Int) : String :=
  format02 (Int.fdiv t 60) ++ ":" ++ format02 (Int.fmod t 60)

/-- What `draw_clock` puts on the canvas. -/
structure RenderOut where
  background : String
  w_outline : String
  b_outline : String
  white_label : String
  white_text : String
  black_label : String
  black_text : String
  show_idle : Bool
deriving DecidableEq, Repr

/-- `ChessSystem.draw_clock` (lines 60-84), as the content drawn for a
snapshot of the game state (the early return on a missing display device
draws nothing and is outside the snapshot-to-content mapping). -/
def drawClock (s : GameState) : RenderOut :=
  { background := C_BEIGE
    w_outline := if s.current_turn = Side.WHITE then C_GOLD else C_BROWN_D
    b_outline := if s.current_turn = Side.BLACK then C_GOLD else C_BROWN_D
    white_label := "GRACZ"
    white_text := mmss s.white_time
    black_label := "BOT [ELO " ++ toString s.elo ++ "]"
    black_text := mmss s.black_time
    show_idle := !s.game_active }

/-- A concrete mid-game state used as input by several witnesses: a game
just started with ELO 1200 and 5 minutes. -/
def sampleActive : GameState := startNewGame initState 1200 5

/-- Claim C1: on any active state with non-negative clocks (the data
model's range for remaining times), one Tick decrements exactly the side
equal to `current_turn` by 1, floored at 0, leaves the other side's time
unchanged, and afterwards the game is inactive exactly when either
remaining time is ≤ 0. -/
theorem tick_active_decrements (s : GameState)
    (hact : s.game_active = true)
    (hw : 0 ≤ s.white_time) (hb : 0 ≤ s.black_time) :
    (s.current_turn = Side.WHITE →
      (tick s).white_time = max (s.white_time - 1) 0 ∧
      (tick s).black_time = s.black_time) ∧
    (s.current_turn = Side.BLACK →
      (tick s).black_time = max (s.black_time - 1) 0 ∧
      (tick s).white_time = s.white_time) ∧
    ((tick s).game_active = false ↔
      (tick s).white_time ≤ 0 ∨ (tick s).black_time ≤ 0) := by
  cases s with
  | mk e w b turn act =>
    cases turn <;> simp_all [tick, tickR] <;> split_ifs <;> simp_all <;> omega

/-- Witness for claim C1 at the concrete mid-game state `sampleActive`. -/
theorem tick_active_decrements_witness :
    sampleActive.game_active = true ∧
    0 ≤ sampleActive.white_time ∧ 0 ≤ sampleActive.black_time ∧
    ((sampleActive.current_turn = Side.WHITE →
      (tick sampleActive).white_time = max (sampleActive.white_time - 1) 0 ∧
      (tick sampleActive).black_time = sampleActive.black_time) ∧
    (sampleActive.current_turn = Side.BLACK →
      (tick sampleActive).black_time = max (sampleActive.black_time - 1) 0 ∧
      (tick sampleActive).white_time = sampleActive.white_time) ∧
    ((tick sampleActive).game_active = false ↔
      (tick sampleActive).white_time ≤ 0 ∨ (tick sampleActive).black_time ≤ 0)) :=
  ⟨by decide, by decide, by decide,
    tick_active_decrements sampleActive (by decide) (by decide) (by decide)⟩

/-- Claim C2: `start_new_game` is a full unconditional reset: whatever
the prior state, it yields exactly the state with the stored difficulty,
both clocks at `minutes * 60`, WHITE to move and the game active. -/
theorem startNewGame_is_full_reset (s : GameState) (eloArg minutes : Int) :
    startNewGame s eloArg minutes =
      { elo := eloArg, white_time := minutes * 60, black_time := minutes * 60,
        current_turn := Side.WHITE, game_active := true } := rfl

/-- Claim C3: a turn signal for `side` passes the turn to the opponent
exactly when the game is active and it is `side`'s turn; every other call
leaves the whole state unchanged, and an immediate repetition of the same
signal is a no-op. -/
theorem onTurnSignal_effect (s : GameState) (side : Side) :
    (s.game_active = true ∧ s.current_turn = side →
      onTurnSignal s side = { s with current_turn := opponent side }) ∧
    (¬(s.game_active = true ∧ s.current_turn = side) →
      onTurnSignal s side = s) ∧
    onTurnSignal (onTurnSignal s side) side = onTurnSignal s side := by
  have hne : opponent side ≠ side := by cases side <;> decide
  refine ⟨?_, ?_, ?_⟩
  · intro h
    simp [onTurnSignal, h.1, h.2]
  · intro h
    simp only [onTurnSignal]
    rw [if_neg]
    simpa using h
  · by_cases h : s.game_active = true ∧ s.current_turn = side
    · simp [onTurnSignal, h.1, h.2, hne]
    · have hno : onTurnSignal s side = s := by
        simp only [onTurnSignal]
        rw [if_neg]
        simpa using h
      rw [hno, hno]

/-- One tick or button event never increases either clock and keeps a
non-negative clock non-negative. -/
theorem stepEvent_time_bounds (s : GameState) (e : Event) :
    (stepEvent s e).white_time ≤ s.white_time ∧
    (stepEvent s e).black_time ≤ s.black_time ∧
    (0 ≤ s.white_time → 0 ≤ (stepEvent s e).white_time) ∧
    (0 ≤ s.black_time → 0 ≤ (stepEvent s e).black_time) := by
  cases e with
  | tick =>
    simp only [stepEvent, tick, tickR]
    split_ifs <;> simp_all <;> omega
  | signal side =>
    simp only [stepEvent, onTurnSignal]
    split_ifs <;> simp

/-- A whole event sequence never increases either clock and keeps
non-negative clocks non-negative. -/
theorem run_time_bounds (s : GameState) (events : List Event) :
    (run s events).white_time ≤ s.white_time ∧
    (run s events).black_time ≤ s.black_time ∧
    (0 ≤ s.white_time → 0 ≤ (run s events).white_time) ∧
    (0 ≤ s.black_time → 0 ≤ (run s events).black_time) := by
  induction events generalizing s with
  | nil => simp [run]
  | cons e es ih =>
    have h1 := stepEvent_time_bounds s e
    have h2 := ih (stepEvent s e)
    exact ⟨le_trans h2.1 h1.1, le_trans h2.2.1 h1.2.1,
      fun hw => h2.2.2.1 (h1.2.2.1 hw), fun hb => h2.2.2.2 (h1.2.2.2 hb)⟩

/-- Running an appended event sequence runs the two parts in order. -/
theorem run_append (s : GameState) (l1 l2 : List Event) :
    run s (l1 ++ l2) = run (run s l1) l2 := by
  induction l1 generalizing s with
  | nil => simp [run]
  | cons e es ih => simp [run, ih]

/-- Claim C4: from any game started with positive minutes, along every
sequence of ticks interleaved with turn signals both clocks stay
non-negative and are non-increasing (every extension of a prefix can only
lower them). -/
theorem run_after_start_monotone (s : GameState) (eloArg minutes : Int)
    (l1 l2 : List Event) (hm : 0 < minutes) :
    0 ≤ (run (startNewGame s eloArg minutes) (l1 ++ l2)).white_time ∧
    0 ≤ (run (startNewGame s eloArg minutes) (l1 ++ l2)).black_time ∧
    (run (startNewGame s eloArg minutes) (l1 ++ l2)).white_time ≤
      (run (startNewGame s eloArg minutes) l1).white_time ∧
    (run (startNewGame s eloArg minutes) (l1 ++ l2)).black_time ≤
      (run (startNewGame s eloArg minutes) l1).black_time := by
  have hw : 0 ≤ (startNewGame s eloArg minutes).white_time := by
    simp only [startNewGame]
    omega
  have hb : 0 ≤ (startNewGame s eloArg minutes).black_time := by
    simp only [startNewGame]
    omega
  have h1 := run_time_bounds (startNewGame s eloArg minutes) l1
  have h2 := run_time_bounds (run (startNewGame s eloArg minutes) l1) l2
  rw [run_append]
  exact ⟨h2.2.2.1 (h1.2.2.1 hw), h2.2.2.2 (h1.2.2.2 hb), h2.1, h2.2.1⟩

/-- Witness for claim C4: a 5-minute game, one tick, then a WHITE turn
signal and another tick. -/
theorem run_after_start_monotone_witness :
    (0 : Int) < 5 ∧
    (0 ≤ (run (startNewGame initState 1200 5)
            ([Event.tick] ++ [Event.signal Side.WHITE, Event.tick])).white_time ∧
    0 ≤ (run (startNewGame initState 1200 5)
            ([Event.tick] ++ [Event.signal Side.WHITE, Event.tick])).black_time ∧
    (run (startNewGame initState 1200 5)
            ([Event.tick] ++ [Event.signal Side.WHITE, Event.tick])).white_time ≤
      (run (startNewGame initState 1200 5) [Event.tick]).white_time ∧
    (run (startNewGame initState 1200 5)
            ([Event.tick] ++ [Event.signal Side.WHITE, Event.tick])).black_time ≤
      (run (startNewGame initState 1200 5) [Event.tick]).black_time) :=
  ⟨by decide,
    run_after_start_monotone initState 1200 5 [Event.tick]
      [Event.signal Side.WHITE, Event.tick] (by decide)⟩

/-- Claim C5: an inactive state is frozen for ticks and turn signals —
each is the identity, hence so is every sequence of them — and only
`start_new_game` raises `game_active` again. -/
theorem inactive_is_terminal (s : GameState) (h : s.game_active = false) :
    tick s = s ∧ (∀ side, onTurnSignal s side = s) ∧
    (∀ events, run s events = s) ∧
    (∀ eloArg minutes, (startNewGame s eloArg minutes).game_active = true) := by
  have ht : tick s = s := by simp [tick, tickR, h]
  have hs : ∀ side, onTurnSignal s side = s := by
    intro side
    simp [onTurnSignal, h]
  refine ⟨ht, hs, ?_, fun _ _ => rfl⟩
  intro events
  induction events with
  | nil => rfl
  | cons e es ih =>
    cases e with
    | tick => simpa [run, stepEvent, ht] using ih
    | signal side => simpa [run, stepEvent, hs side] using ih

/-- Witness for claim C5 at the initial (inactive) state. -/
theorem inactive_is_terminal_witness :
    initState.game_active = false ∧
    (tick initState = initState ∧
     (∀ side, onTurnSignal initState side = initState) ∧
     (∀ events, run initState events = initState) ∧
     (∀ eloArg minutes, (startNewGame initState eloArg minutes).game_active = true)) :=
  ⟨by decide, inactive_is_terminal initState (by decide)⟩

/-- Counterexample to claim C6 as stated: at the initial state the game
is inactive and a Tick does not invoke `draw_clock` at all (in the
source, the `draw_clock()` call of `update_timer` sits inside the
`if self.game_active:` block). -/
theorem tick_inactive_no_render_cex :
    initState.game_active = false ∧ (tickR initState).2 = false := by
  decide

/-- Claim C6 as amended: a Tick triggers a render exactly when the game
was active when the tick began; an inactive Tick renders nothing. -/
theorem tickR_renders_iff_active (s : GameState) :
    (tickR s).2 = s.game_active := by
  cases h : s.game_active <;> simp [tickR, h]

/-- Claim C7: any inbound string the handler cannot fully parse as a
start command (missing prefix, too few `:`-fields, or a field that is not
an integer) leaves the state exactly as it was; totality of `onWrite`
embeds the source's catch-all `except`, so no exception escapes. -/
theorem onWrite_malformed_is_noop (s : GameState) (data : String)
    (h : wellFormedStart data = false) : onWrite s data = s := by
  unfold wellFormedStart at h
  unfold onWrite
  by_cases hpre : startsWithPre data ("START_GAME:ELO:") = true
  · rw [if_pos hpre]
    rw [hpre] at h
    simp only [Bool.true_and] at h
    split
    · rename_i p2 p4 h2 h4
      rw [h2, h4] at h
      simp only [Option.isSome] at h
      split
      · rename_i a b hp2 hp4
        rw [hp2, hp4] at h
        simp at h
      · rfl
    · rfl
  · rw [if_neg hpre]

/-- Witness for claim C7: the spec's scenario string with a non-integer
ELO field, applied to a mid-game state. -/
theorem onWrite_malformed_is_noop_witness :
    wellFormedStart ("START_GAME:ELO:abc:TIME:5") = false ∧
    onWrite sampleActive ("START_GAME:ELO:abc:TIME:5") = sampleActive :=
  ⟨by decide,
    onWrite_malformed_is_noop sampleActive ("START_GAME:ELO:abc:TIME:5") (by decide)⟩

/-- Claim C8: `start_new_game` validates nothing: any `minutes ≤ 0` (and
any difficulty whatsoever) still sets both clocks to `minutes * 60` — so
zero or negative — stores the difficulty and activates the game, and a
syntactically valid command delivering such values reaches it through
`on_write`. -/
theorem startNewGame_unvalidated (s : GameState) (eloArg minutes : Int)
    (h : minutes ≤ 0) :
    (startNewGame s eloArg minutes).white_time = minutes * 60 ∧
    (startNewGame s eloArg minutes).black_time = minutes * 60 ∧
    (startNewGame s eloArg minutes).white_time ≤ 0 ∧
    (startNewGame s eloArg minutes).black_time ≤ 0 ∧
    (startNewGame s eloArg minutes).game_active = true ∧
    (startNewGame s eloArg minutes).elo = eloArg ∧
    onWrite s ("START_GAME:ELO:3000:TIME:-5") = startNewGame s 3000 (-5) := by
  refine ⟨rfl, rfl, ?_, ?_, rfl, rfl, rfl⟩ <;> simp only [startNewGame] <;> omega

/-- Witness for claim C8: starting with ELO 3000 and -5 minutes. -/
theorem startNewGame_unvalidated_witness :
    (-5 : Int) ≤ 0 ∧
    ((startNewGame initState 3000 (-5)).white_time = (-5) * 60 ∧
     (startNewGame initState 3000 (-5)).black_time = (-5) * 60 ∧
     (startNewGame initState 3000 (-5)).white_time ≤ 0 ∧
     (startNewGame initState 3000 (-5)).black_time ≤ 0 ∧
     (startNewGame initState 3000 (-5)).game_active = true ∧
     (startNewGame initState 3000 (-5)).elo = 3000 ∧
     onWrite initState ("START_GAME:ELO:3000:TIME:-5") = startNewGame initState 3000 (-5)) :=
  ⟨by decide, startNewGame_unvalidated initState 3000 (-5) (by decide)⟩

/-- Claim C9: for every snapshot the renderer shows each side's time as
the zero-padded `MM:SS` of floor `divmod` by 60, puts the gold highlight
border on exactly the panel of `current_turn`, and shows the idle overlay
exactly when the game is inactive. -/
theorem drawClock_contract (s : GameState) :
    (drawClock s).white_text =
      format02 (Int.fdiv s.white_time 60) ++ ":" ++ format02 (Int.fmod s.white_time 60) ∧
    (drawClock s).black_text =
      format02 (Int.fdiv s.black_time 60) ++ ":" ++ format02 (Int.fmod s.black_time 60) ∧
    ((drawClock s).w_outline = C_GOLD ↔ s.current_turn = Side.WHITE) ∧
    ((drawClock s).b_outline = C_GOLD ↔ s.current_turn = Side.BLACK) ∧
    ((drawClock s).show_idle = true ↔ s.game_active = false) := by
  refine ⟨rfl, rfl, ?_, ?_, ?_⟩
  · cases hc : s.current_turn <;> simp [drawClock, hc, C_GOLD, C_BROWN_D]
  · cases hc : s.current_turn <;> simp [drawClock, hc, C_GOLD, C_BROWN_D]
  · cases ha : s.game_active <;> simp [drawClock, ha]

/-- Claim C10: the constructor's defaults — inactive, 600 seconds
(10 minutes) on each clock, WHITE to move, difficulty 800. -/
theorem initState_defaults :
    initState.game_active = false ∧
    initState.white_time = 600 ∧ initState.black_time = 600 ∧
    initState.white_time = 10 * 60 ∧
    initState.current_turn = Side.WHITE ∧ initState.elo = 800 := by
  decide
